import Mathlib

/-!
# Verification of `python-multitest.py` (free-proxy-tester)

A shallow embedding of the proxy-testing program: the CSV rows become
association lists, the outcome of the single HTTP request issued by
`test_proxy` becomes an explicit `ReqOutcome` value, and exceptions that a
function may raise to its caller become the `Except` monad.  The regex
`(?:HTTP|status)\s+(\d{3})` used by `extract_status_from_error` is embedded
as a leftmost-match scanner over the character list of the message
(ASCII case folding, as all the strings of interest are ASCII).
-/

namespace ProxyTester

/-- ASCII whitespace, as matched by the regex class `\s` on the
error-message strings of interest. -/
def isPyWs (c : Char) : Bool :=
  c = ' ' || c = '\t' || c = '\n' || c = '\r' || c = '\x0b' || c = '\x0c'

/-- Decimal digit, as matched by the regex class `\d`. -/
def isDigitCh (c : Char) : Bool :=
  '0' ≤ c && c ≤ '9'

/-- Numeric value of one decimal digit character. -/
def digitVal (c : Char) : Nat := c.toNat - 48

/-- Drop a case-insensitive occurrence of `pat` (given lowercase) from the
front of `cs`, returning the remainder; `none` when `cs` does not start
with `pat` up to case. -/
def dropPrefixCI : List Char → List Char → Option (List Char)
  | [], cs => some cs
  | _ :: _, [] => none
  | p :: ps, c :: cs => if c.toLower = p then dropPrefixCI ps cs else none

/-- Match `\d{3}` at the front of `cs`: the next three characters are
digits (a fourth digit after them does not block the match), captured as
their numeric value. -/
def threeDigits : List Char → Option Nat
  | a :: b :: d :: _ =>
    if isDigitCh a && isDigitCh b && isDigitCh d then
      some (100 * digitVal a + 10 * digitVal b + digitVal d)
    else none
  | _ => none

/-- After the maximal run of further whitespace, require three digits:
the backtracking behaviour of the greedy `\s+` followed by `\d{3}`
(shortening the whitespace run can never expose a digit). -/
def wsDigitsLoop : List Char → Option Nat
  | [] => none
  | c :: cs => if isPyWs c then wsDigitsLoop cs else threeDigits (c :: cs)

/-- Match `\s+(\d{3})` at the front of `cs`: at least one whitespace
character, then the captured three-digit group. -/
def wsThenDigits : List Char → Option Nat
  | [] => none
  | c :: cs => if isPyWs c then wsDigitsLoop cs else none

/-- Match the whole pattern `(?:HTTP|status)\s+(\d{3})` anchored at the
front of `cs`, returning the captured number. -/
def matchAt (cs : List Char) : Option Nat :=
  match dropPrefixCI "http".data cs with
  | some rest => wsThenDigits rest
  | none =>
    match dropPrefixCI "status".data cs with
    | some rest => wsThenDigits rest
    | none => none

/-- Leftmost search: `re.search` tries each start position from the left
and returns the first successful match. -/
def reSearch : List Char → Option Nat
  | [] => none
  | c :: cs =>
    match matchAt (c :: cs) with
    | some v => some v
    | none => reSearch cs

/-- `extract_status_from_error`: the 3-digit number captured by the first
match of `(?:HTTP|status)\s+(\d{3})` (case-insensitive), else 0. -/
def extract_status_from_error (error_message : String) : Nat :=
  (reSearch error_message.data).getD 0

/-- Spec-side reading of one match: the character list decomposes into a
keyword equal to "HTTP" or "status" up to case, a nonempty run of
whitespace, and three digits whose value is captured.  Stated purely as a
decomposition, independent of the scanner above. -/
def SpecMatchAt (cs : List Char) (v : Nat) : Prop :=
  ∃ kw ws a b d rest,
    cs = kw ++ (ws ++ a :: b :: d :: rest) ∧
    (kw.map Char.toLower = "http".data ∨ kw.map Char.toLower = "status".data) ∧
    ¬ws = [] ∧ (∀ c ∈ ws, isPyWs c = true) ∧
    isDigitCh a = true ∧ isDigitCh b = true ∧ isDigitCh d = true ∧
    v = 100 * digitVal a + 10 * digitVal b + digitVal d

/-- The result dataclass: one row of the output CSV. -/
structure ProxyResult where
  proxy : String := ""
  status : Nat := 0
  location : String := ""
  real_location : String := ""
  error : String := ""
deriving Repr, DecidableEq

/-- One CSV record: a mapping of column name to string value
(`csv.DictReader` row), embedded as an association list. -/
abbrev Row : Type := List (String × String)

/-- `row[k]` as a partial lookup: `none` models a `KeyError`. -/
def rowGet? (row : Row) (k : String) : Option String :=
  (List.find? (fun p => p.1 = k) row).map (fun p => p.2)

/-- `row.get(k, d)`: lookup with a default. -/
def rowGetD (row : Row) (k d : String) : String :=
  (rowGet? row k).getD d

/-- Python `str.lower()` restricted to ASCII (all values compared by the
program — "yes"/"Yes"/... — are ASCII). -/
def pyLower (s : String) : String := String.mk (s.data.map Char.toLower)

/-- The outcome of the single `requests.get(TARGET_URL, proxies=..., timeout=5)`
call, as observed by `test_proxy`'s `try` block:
either a response (status code and parsed JSON body, an association list of
string fields), or one of the exception kinds its `except` clauses
distinguish, or any other exception raised inside the `try` body
(`otherExc`), which no clause matches but the `return` in `finally`
discards. -/
inductive ReqOutcome where
  | success (statusCode : Nat) (json : List (String × String))
  | httpError (respStatus : Nat) (msg : String)
  | proxyError (msg : String)
  | connError (msg : String)
  | timeout (msg : String)
  | reqExc (msg : String)
  | otherExc
deriving Repr, DecidableEq

/-- An exception that `test_proxy` raises to its caller: only the
`KeyError` of `row[proxy_field]` / `row[protocol_field]`, evaluated before
the `try` block. -/
inductive TestError where
  | keyError (field : String)
deriving Repr, DecidableEq

/-- `test_proxy(row, proxy_field, location_field, protocol_field)` given
the outcome of its network call.  Follows the source line by line:
proxy-URL construction (lines 35-38), the `try/except` classification
(lines 47-63), and the normalisation and `ProxyResult` construction in
`finally` (lines 64-73). -/
def test_proxy (row : Row) (proxy_field : String)
    (location_field : Option String := none)
    (protocol_field : Option String := none)
    (outcome : ReqOutcome) : Except TestError ProxyResult :=
  match rowGet? row proxy_field with
  | none => .error (.keyError proxy_field)
  | some raw =>
    let built : Except TestError String :=
      match protocol_field with
      | none => .ok raw
      | some f =>
        if f == "" then .ok raw
        else match rowGet? row f with
          | none => .error (.keyError f)
          | some v =>
            .ok ((if pyLower v == "yes" then "https" else "http") ++ "://" ++ raw)
    match built with
    | .error e => .error e
    | .ok proxy_url =>
      let classified : Option String × Nat × String :=
        match outcome with
        | .success code json => (some (rowGetD json "timezone" "Unknown"), code, "")
        | .httpError code msg => (none, code, "HTTPError: " ++ msg)
        | .proxyError msg =>
            (none, extract_status_from_error msg, "ProxyError: " ++ msg)
        | .connError msg =>
            (none, extract_status_from_error msg, "ConnectionError: " ++ msg)
        | .timeout msg => (none, 0, "TimeoutError: " ++ msg)
        | .reqExc msg => (none, 0, "RequestException: " ++ msg)
        | .otherExc => (none, 0, "")
      let real_location := classified.1
      let status_code := if classified.2.1 < 200 then 0 else classified.2.1
      .ok { proxy := proxy_url
            status := status_code
            location :=
              match location_field with
              | none => "Unknown"
              | some lf => if lf == "" then "Unknown" else rowGetD row lf "Unknown"
            real_location :=
              match real_location with
              | none => "Failed"
              | some s => if s == "" then "Failed" else s
            error := classified.2.2 }

/-- The truncation step of `process_proxies` (lines 77-79):
`if limit: rows = rows[:limit]`.  `limit` is an optional Python int and the
slice accepts negative bounds, so the embedded limit is `Option Int`;
`limit = none` and `limit = some 0` are both falsy and skip the slice. -/
def submitted_rows (rows : List Row) (limit : Option Int) : List Row :=
  match limit with
  | none => rows
  | some n =>
    if n = 0 then rows
    else if 0 ≤ n then rows.take n.toNat
    else rows.take (rows.length - (-n).toNat)

/-- The result-collection loop of `process_proxies` (lines 92-98), over the
completed tasks in completion order: a task whose `future.result()` raises
is logged and skipped, every other task contributes exactly one output
row, and the loop continues either way. -/
def collect_rows : List (Except TestError ProxyResult) → List ProxyResult
  | [] => []
  | .ok r :: rest => r :: collect_rows rest
  | .error _ :: rest => collect_rows rest

instance {ε α : Type} [DecidableEq ε] [DecidableEq α] : DecidableEq (Except ε α) :=
  fun a b =>
    match a, b with
    | .ok x, .ok y => if h : x = y then .isTrue (by rw [h]) else .isFalse (by simp [h])
    | .error x, .error y => if h : x = y then .isTrue (by rw [h]) else .isFalse (by simp [h])
    | .ok _, .error _ => .isFalse (by simp)
    | .error _, .ok _ => .isFalse (by simp)

/-! ## Observation functions

Spec-side views of a `ReqOutcome`, used to state the claims: the status
code of the HTTP response the request obtained (when one exists), and the
status code `test_proxy` recovers from the textual error message of a
proxy / connection error. -/

/-- The status code of the HTTP response obtained by the request, when the
request obtained one at all (a successful `requests.get`, or an
`HTTPError` carrying its response). -/
def obtainedStatus : ReqOutcome → Option Nat
  | .success code _ => some code
  | .httpError code _ => some code
  | _ => none

/-- The status code that `test_proxy` recovers from the error text of a
proxy or connection error. -/
def recoveredStatus : ReqOutcome → Option Nat
  | .proxyError msg => some (extract_status_from_error msg)
  | .connError msg => some (extract_status_from_error msg)
  | _ => none

/-- Whether the outcome is a successful response. -/
def isSuccess : ReqOutcome → Bool
  | .success _ _ => true
  | _ => false

/-- The value of `status_code` at the top of the `finally` block, before
the `< 200` normalisation. -/
def rawStatus : ReqOutcome → Nat
  | .success code _ => code
  | .httpError code _ => code
  | .proxyError msg => extract_status_from_error msg
  | .connError msg => extract_status_from_error msg
  | .timeout _ => 0
  | .reqExc _ => 0
  | .otherExc => 0

/-- The `status` field of the returned `ProxyResult`: `status_code` after
the `finally` normalisation. -/
def normStatus (oc : ReqOutcome) : Nat :=
  if rawStatus oc < 200 then 0 else rawStatus oc

/-- The `error` field of the returned `ProxyResult`. -/
def errorText : ReqOutcome → String
  | .success _ _ => ""
  | .httpError _ msg => "HTTPError: " ++ msg
  | .proxyError msg => "ProxyError: " ++ msg
  | .connError msg => "ConnectionError: " ++ msg
  | .timeout msg => "TimeoutError: " ++ msg
  | .reqExc msg => "RequestException: " ++ msg
  | .otherExc => ""

/-- The `real_location` field of the returned `ProxyResult`:
`real_location or "Failed"` applied to the value the `try` body left in
`real_location`. -/
def realLocationOf : ReqOutcome → String
  | .success _ json =>
    if rowGetD json "timezone" "Unknown" == "" then "Failed"
    else rowGetD json "timezone" "Unknown"
  | _ => "Failed"

/-- The `location` field of the returned `ProxyResult`. -/
def locationOf (row : Row) : Option String → String
  | none => "Unknown"
  | some lf => if lf == "" then "Unknown" else rowGetD row lf "Unknown"

/-! ## Characterisation of `test_proxy`

Five lemmas covering every control path: the two `KeyError` paths raised
before the `try` block, and the three proxy-URL construction paths
(no protocol field, an empty (falsy) protocol field name, a present
protocol field). -/

/-- A missing proxy column raises `KeyError(proxy_field)`. -/
theorem test_proxy_missing_proxy_col (row : Row) (pf : String)
    (lf prf : Option String) (oc : ReqOutcome)
    (hpf : rowGet? row pf = none) :
    test_proxy row pf lf prf oc = .error (.keyError pf) := by
  simp [test_proxy, hpf]

/-- A configured (truthy) protocol field missing from the row raises
`KeyError(protocol_field)`. -/
theorem test_proxy_missing_protocol_col (row : Row) (pf : String)
    (lf : Option String) (f : String) (oc : ReqOutcome) (raw : String)
    (hpf : rowGet? row pf = some raw) (hf : ¬f = "")
    (hv : rowGet? row f = none) :
    test_proxy row pf lf (some f) oc = .error (.keyError f) := by
  simp [test_proxy, hpf, hf, hv]

/-- With no protocol field, `test_proxy` returns the result built from the
raw address. -/
theorem test_proxy_no_protocol (row : Row) (pf : String) (lf : Option String)
    (oc : ReqOutcome) (raw : String) (hpf : rowGet? row pf = some raw) :
    test_proxy row pf lf none oc =
      .ok { proxy := raw, status := normStatus oc, location := locationOf row lf,
            real_location := realLocationOf oc, error := errorText oc } := by
  cases lf <;> cases oc <;>
    simp [test_proxy, hpf, normStatus, rawStatus, locationOf, realLocationOf, errorText]

/-- An empty (falsy) protocol field name behaves like no protocol field. -/
theorem test_proxy_empty_protocol (row : Row) (pf : String) (lf : Option String)
    (oc : ReqOutcome) (raw : String) (hpf : rowGet? row pf = some raw) :
    test_proxy row pf lf (some "") oc =
      .ok { proxy := raw, status := normStatus oc, location := locationOf row lf,
            real_location := realLocationOf oc, error := errorText oc } := by
  cases lf <;> cases oc <;>
    simp [test_proxy, hpf, normStatus, rawStatus, locationOf, realLocationOf, errorText]

/-- With a truthy protocol field present in the row, `test_proxy` returns
the result built from the scheme-prefixed address. -/
theorem test_proxy_with_protocol (row : Row) (pf : String) (lf : Option String)
    (f : String) (oc : ReqOutcome) (raw v : String)
    (hpf : rowGet? row pf = some raw) (hf : ¬f = "")
    (hv : rowGet? row f = some v) :
    test_proxy row pf lf (some f) oc =
      .ok { proxy := (if pyLower v == "yes" then "https" else "http") ++ "://" ++ raw,
            status := normStatus oc, location := locationOf row lf,
            real_location := realLocationOf oc, error := errorText oc } := by
  cases lf <;> cases oc <;>
    simp [test_proxy, hpf, hf, hv, normStatus, rawStatus, locationOf, realLocationOf, errorText]

/-- Inversion: whenever `test_proxy` returns a result (rather than raising),
its `status`, `error`, `real_location` and `location` fields are the
observation functions of the outcome. -/
theorem test_proxy_ok_inv {row : Row} {pf : String} {lf prf : Option String}
    {oc : ReqOutcome} {res : ProxyResult}
    (h : test_proxy row pf lf prf oc = .ok res) :
    res.status = normStatus oc ∧ res.error = errorText oc ∧
    res.real_location = realLocationOf oc ∧ res.location = locationOf row lf := by
  cases hpf : rowGet? row pf with
  | none =>
    rw [test_proxy_missing_proxy_col row pf lf prf oc hpf] at h
    exact absurd h (by simp)
  | some raw =>
    cases prf with
    | none =>
      rw [test_proxy_no_protocol row pf lf oc raw hpf] at h
      obtain rfl := (Except.ok.injEq _ _).mp h.symm
      exact ⟨rfl, rfl, rfl, rfl⟩
    | some f =>
      by_cases hf : f = ""
      · subst hf
        rw [test_proxy_empty_protocol row pf lf oc raw hpf] at h
        obtain rfl := (Except.ok.injEq _ _).mp h.symm
        exact ⟨rfl, rfl, rfl, rfl⟩
      · cases hv : rowGet? row f with
        | none =>
          rw [test_proxy_missing_protocol_col row pf lf f oc raw hpf hf hv] at h
          exact absurd h (by simp)
        | some v =>
          rw [test_proxy_with_protocol row pf lf f oc raw v hpf hf hv] at h
          obtain rfl := (Except.ok.injEq _ _).mp h.symm
          exact ⟨rfl, rfl, rfl, rfl⟩

/-- The `finally` normalisation, as an iff on the resulting value. -/
theorem norm_eq_zero_iff (n : Nat) : (if n < 200 then 0 else n) = 0 ↔ n < 200 := by
  by_cases h : n < 200
  · simp [h]
  · simp [h]; omega

/-- The collection loop distributes over list append. -/
theorem collect_rows_append (l₁ l₂ : List (Except TestError ProxyResult)) :
    collect_rows (l₁ ++ l₂) = collect_rows l₁ ++ collect_rows l₂ := by
  induction l₁ with
  | nil => rfl
  | cons x xs ih => cases x <;> simp [collect_rows, ih]

/-- When no task's collection raises, the loop writes one row per task. -/
theorem collect_rows_length_of_ok (l : List (Except TestError ProxyResult))
    (h : ∀ t ∈ l, t.isOk = true) : (collect_rows l).length = l.length := by
  induction l with
  | nil => rfl
  | cons x xs ih =>
    cases x with
    | ok r => simpa [collect_rows] using ih (fun t ht => h t (List.mem_cons_of_mem _ ht))
    | error e => exact absurd (h _ (List.mem_cons_self _ _)) (by simp [Except.isOk, Except.toBool])

/-! ## Correctness of the regex scanner

`matchAt` / `reSearch` are related to the spec-side decomposition
`SpecMatchAt`: `matchAt` succeeds exactly on the decomposable lists, and
`reSearch` returns the value of the leftmost decomposable position. -/

/-- A digit character is never whitespace (`\d` and `\s` are disjoint). -/
theorem digit_not_ws {c : Char} (h : isDigitCh c = true) : isPyWs c = false := by
  by_contra hws
  rw [Bool.not_eq_false] at hws
  simp only [isPyWs, Bool.or_eq_true, decide_eq_true_eq] at hws
  rcases hws with ((((h' | h') | h') | h') | h') | h' <;>
    (subst h'; exact absurd h (by decide))

/-- `dropPrefixCI` succeeds exactly on a case-insensitive occurrence of
the pattern at the front. -/
theorem dropPrefixCI_eq_some {pat cs rest : List Char} :
    dropPrefixCI pat cs = some rest ↔
    ∃ kw, cs = kw ++ rest ∧ kw.map Char.toLower = pat := by
  induction pat generalizing cs with
  | nil =>
    constructor
    · intro h
      simp only [dropPrefixCI, Option.some.injEq] at h
      exact ⟨[], by simp [h], rfl⟩
    · rintro ⟨kw, rfl, hmap⟩
      obtain rfl : kw = [] := by simpa using congrArg List.length hmap
      simp [dropPrefixCI]
  | cons p ps ih =>
    cases cs with
    | nil =>
      constructor
      · intro h; exact absurd h (by simp [dropPrefixCI])
      · rintro ⟨kw, hkw, hmap⟩
        obtain rfl : kw = [] := (List.append_eq_nil.mp hkw.symm).1
        exact absurd hmap (by simp)
    | cons c cs' =>
      by_cases hc : c.toLower = p
      · rw [show dropPrefixCI (p :: ps) (c :: cs') = dropPrefixCI ps cs' by
          simp [dropPrefixCI, hc]]
        rw [ih]
        constructor
        · rintro ⟨kw, rfl, hmap⟩
          exact ⟨c :: kw, rfl, by simp [hmap, hc]⟩
        · rintro ⟨kw, hkw, hmap⟩
          cases kw with
          | nil => exact absurd hmap (by simp)
          | cons k kw' =>
            obtain ⟨rfl, hcs⟩ : c = k ∧ cs' = kw' ++ rest := by
              simpa using hkw
            simp only [List.map_cons, List.cons.injEq] at hmap
            exact ⟨kw', hcs, hmap.2⟩
      · rw [show dropPrefixCI (p :: ps) (c :: cs') = none by
          simp [dropPrefixCI, hc]]
        constructor
        · intro h; exact absurd h (by simp)
        · rintro ⟨kw, hkw, hmap⟩
          cases kw with
          | nil => exact absurd hmap (by simp)
          | cons k kw' =>
            obtain ⟨rfl, -⟩ : c = k ∧ cs' = kw' ++ rest := by simpa using hkw
            simp only [List.map_cons, List.cons.injEq] at hmap
            exact absurd hmap.1 hc

/-- `threeDigits` succeeds exactly on a list opening with three digits. -/
theorem threeDigits_eq_some {cs : List Char} {v : Nat} :
    threeDigits cs = some v ↔
    ∃ a b d rest, cs = a :: b :: d :: rest ∧ isDigitCh a = true ∧
      isDigitCh b = true ∧ isDigitCh d = true ∧
      v = 100 * digitVal a + 10 * digitVal b + digitVal d := by
  constructor
  · intro h
    match cs, h with
    | a :: b :: d :: rest, h =>
      rw [threeDigits] at h
      by_cases hd : (isDigitCh a && isDigitCh b && isDigitCh d) = true
      · obtain ⟨⟨ha, hb⟩, hdd⟩ := by simpa [Bool.and_eq_true] using hd
        rw [if_pos hd] at h
        exact ⟨a, b, d, rest, rfl, ha, hb, hdd, (Option.some.injEq _ _).mp h |>.symm⟩
      · rw [if_neg hd] at h
        exact absurd h (by simp)
  · rintro ⟨a, b, d, rest, rfl, ha, hb, hd, rfl⟩
    simp [threeDigits, ha, hb, hd]

/-- The greedy whitespace loop succeeds exactly when the list is a run of
whitespace followed by three digits. -/
theorem wsDigitsLoop_iff {cs : List Char} {v : Nat} :
    wsDigitsLoop cs = some v ↔
    ∃ ws tail, cs = ws ++ tail ∧ (∀ c ∈ ws, isPyWs c = true) ∧
      threeDigits tail = some v := by
  induction cs with
  | nil =>
    constructor
    · intro h; exact absurd h (by simp [wsDigitsLoop])
    · rintro ⟨ws, tail, hape, -, h3⟩
      obtain ⟨rfl, rfl⟩ := List.append_eq_nil.mp hape.symm
      exact absurd h3 (by simp [threeDigits])
  | cons c cs' ih =>
    by_cases hc : isPyWs c = true
    · rw [show wsDigitsLoop (c :: cs') = wsDigitsLoop cs' by simp [wsDigitsLoop, hc], ih]
      constructor
      · rintro ⟨ws, tail, rfl, hws, h3⟩
        refine ⟨c :: ws, tail, rfl, ?_, h3⟩
        intro x hx
        rcases List.mem_cons.mp hx with rfl | hx
        · exact hc
        · exact hws x hx
      · rintro ⟨ws, tail, hcs, hws, h3⟩
        cases ws with
        | nil =>
          obtain ⟨a, b, d, rest, htail, ha, -, -, -⟩ := threeDigits_eq_some.mp h3
          rw [List.nil_append] at hcs
          rw [htail] at hcs
          obtain ⟨rfl, -⟩ := List.cons.injEq .. |>.mp hcs
          exact absurd hc (by simp [digit_not_ws ha])
        | cons w ws' =>
          obtain ⟨rfl, hcs'⟩ : c = w ∧ cs' = ws' ++ tail := by simpa using hcs
          exact ⟨ws', tail, hcs', fun x hx => hws x (List.mem_cons_of_mem _ hx), h3⟩
    · rw [show wsDigitsLoop (c :: cs') = threeDigits (c :: cs') by simp [wsDigitsLoop, hc]]
      constructor
      · intro h3; exact ⟨[], c :: cs', rfl, by simp, h3⟩
      · rintro ⟨ws, tail, hcs, hws, h3⟩
        cases ws with
        | nil => rw [List.nil_append] at hcs; rw [← hcs] at h3; exact h3
        | cons w ws' =>
          obtain ⟨rfl, -⟩ : c = w ∧ cs' = ws' ++ tail := by simpa using hcs
          exact absurd (hws c (List.mem_cons_self _ _)) (by simp [hc])

/-- `\s+(\d{3})`: a nonempty whitespace run then three digits. -/
theorem wsThenDigits_iff {cs : List Char} {v : Nat} :
    wsThenDigits cs = some v ↔
    ∃ ws tail, cs = ws ++ tail ∧ ¬ws = [] ∧ (∀ c ∈ ws, isPyWs c = true) ∧
      threeDigits tail = some v := by
  cases cs with
  | nil =>
    constructor
    · intro h; exact absurd h (by simp [wsThenDigits])
    · rintro ⟨ws, tail, hape, hne, -, -⟩
      exact absurd (List.append_eq_nil.mp hape.symm).1 hne
  | cons c cs' =>
    by_cases hc : isPyWs c = true
    · rw [show wsThenDigits (c :: cs') = wsDigitsLoop cs' by simp [wsThenDigits, hc],
        wsDigitsLoop_iff]
      constructor
      · rintro ⟨ws, tail, rfl, hws, h3⟩
        refine ⟨c :: ws, tail, rfl, by simp, ?_, h3⟩
        intro x hx
        rcases List.mem_cons.mp hx with rfl | hx
        · exact hc
        · exact hws x hx
      · rintro ⟨ws, tail, hcs, hne, hws, h3⟩
        cases ws with
        | nil => exact absurd rfl hne
        | cons w ws' =>
          obtain ⟨rfl, hcs'⟩ : c = w ∧ cs' = ws' ++ tail := by simpa using hcs
          exact ⟨ws', tail, hcs', fun x hx => hws x (List.mem_cons_of_mem _ hx), h3⟩
    · rw [show wsThenDigits (c :: cs') = none by simp [wsThenDigits, hc]]
      constructor
      · intro h; exact absurd h (by simp)
      · rintro ⟨ws, tail, hcs, hne, hws, -⟩
        cases ws with
        | nil => exact absurd rfl hne
        | cons w ws' =>
          obtain ⟨rfl, -⟩ : c = w ∧ cs' = ws' ++ tail := by simpa using hcs
          exact absurd (hws c (List.mem_cons_self _ _)) (by simp [hc])

/-- The alternation is deterministic: a position opening with "status"
(up to case) cannot also open with "HTTP". -/
theorem http_of_status_none {kw tail : List Char}
    (hkw : kw.map Char.toLower = "status".data) :
    dropPrefixCI "http".data (kw ++ tail) = none := by
  cases hh : dropPrefixCI "http".data (kw ++ tail) with
  | none => rfl
  | some r =>
    obtain ⟨kw', hcs, hkw'⟩ := dropPrefixCI_eq_some.mp hh
    cases kw with
    | nil => exact absurd hkw (by simp)
    | cons k0 kwt =>
      cases kw' with
      | nil => exact absurd hkw' (by simp)
      | cons k0' kwt' =>
        obtain ⟨rfl, -⟩ : k0 = k0' ∧ kwt ++ tail = kwt' ++ r := by simpa using hcs
        rw [show ("status").data = 's' :: 't' :: 'a' :: 't' :: 'u' :: 's' :: ([] : List Char)
          from rfl] at hkw
        simp only [List.map_cons, List.cons.injEq] at hkw
        rw [show ("http").data = 'h' :: 't' :: 't' :: 'p' :: ([] : List Char)
          from rfl] at hkw'
        simp only [List.map_cons, List.cons.injEq] at hkw'
        have h2 := hkw'.1
        rw [hkw.1] at h2
        exact absurd h2 (by decide)

/-- `matchAt` succeeds with value `v` exactly when the list decomposes as
keyword, whitespace, three digits of value `v`. -/
theorem matchAt_iff {cs : List Char} {v : Nat} :
    matchAt cs = some v ↔ SpecMatchAt cs v := by
  constructor
  · intro h
    cases hh : dropPrefixCI "http".data cs with
    | some rest =>
      rw [show matchAt cs = wsThenDigits rest by rw [matchAt, hh]] at h
      obtain ⟨kw, rfl, hkw⟩ := dropPrefixCI_eq_some.mp hh
      obtain ⟨ws, tail, rfl, hne, hws, h3⟩ := wsThenDigits_iff.mp h
      obtain ⟨a, b, d, rest', rfl, ha, hb, hd, rfl⟩ := threeDigits_eq_some.mp h3
      exact ⟨kw, ws, a, b, d, rest', rfl, Or.inl hkw, hne, hws, ha, hb, hd, rfl⟩
    | none =>
      cases hs : dropPrefixCI "status".data cs with
      | some rest =>
        rw [show matchAt cs = wsThenDigits rest by rw [matchAt, hh, hs]] at h
        obtain ⟨kw, rfl, hkw⟩ := dropPrefixCI_eq_some.mp hs
        obtain ⟨ws, tail, rfl, hne, hws, h3⟩ := wsThenDigits_iff.mp h
        obtain ⟨a, b, d, rest', rfl, ha, hb, hd, rfl⟩ := threeDigits_eq_some.mp h3
        exact ⟨kw, ws, a, b, d, rest', rfl, Or.inr hkw, hne, hws, ha, hb, hd, rfl⟩
      | none =>
        rw [show matchAt cs = none by rw [matchAt, hh, hs]] at h
        exact absurd h (by simp)
  · rintro ⟨kw, ws, a, b, d, rest, rfl, hkw | hkw, hne, hws, ha, hb, hd, rfl⟩
    · have hh : dropPrefixCI "http".data (kw ++ (ws ++ a :: b :: d :: rest)) =
          some (ws ++ a :: b :: d :: rest) :=
        dropPrefixCI_eq_some.mpr ⟨kw, rfl, hkw⟩
      rw [show matchAt (kw ++ (ws ++ a :: b :: d :: rest)) =
          wsThenDigits (ws ++ a :: b :: d :: rest) by rw [matchAt, hh]]
      exact wsThenDigits_iff.mpr ⟨ws, a :: b :: d :: rest, rfl, hne, hws,
        threeDigits_eq_some.mpr ⟨a, b, d, rest, rfl, ha, hb, hd, rfl⟩⟩
    · have hh := @http_of_status_none kw (ws ++ a :: b :: d :: rest) hkw
      have hs : dropPrefixCI "status".data (kw ++ (ws ++ a :: b :: d :: rest)) =
          some (ws ++ a :: b :: d :: rest) :=
        dropPrefixCI_eq_some.mpr ⟨kw, rfl, hkw⟩
      rw [show matchAt (kw ++ (ws ++ a :: b :: d :: rest)) =
          wsThenDigits (ws ++ a :: b :: d :: rest) by rw [matchAt, hh, hs]]
      exact wsThenDigits_iff.mpr ⟨ws, a :: b :: d :: rest, rfl, hne, hws,
        threeDigits_eq_some.mpr ⟨a, b, d, rest, rfl, ha, hb, hd, rfl⟩⟩

/-- The empty list has no match. -/
theorem not_specMatchAt_nil (v : Nat) : ¬SpecMatchAt [] v := by
  rintro ⟨kw, ws, a, b, d, rest, heq, -⟩
  exact absurd heq.symm (by simp)

/-- `re.search` fails exactly when no position of the string matches. -/
theorem reSearch_eq_none_iff {cs : List Char} :
    reSearch cs = none ↔ ∀ i v, ¬SpecMatchAt (cs.drop i) v := by
  induction cs with
  | nil =>
    simp only [reSearch, List.drop_nil, true_iff]
    exact fun i v => not_specMatchAt_nil v
  | cons c cs' ih =>
    cases hm : matchAt (c :: cs') with
    | some v =>
      rw [show reSearch (c :: cs') = some v by rw [reSearch, hm]]
      constructor
      · intro h; exact absurd h (by simp)
      · intro hall
        exact absurd (matchAt_iff.mp hm) (by simpa using hall 0 v)
    | none =>
      rw [show reSearch (c :: cs') = reSearch cs' by rw [reSearch, hm], ih]
      constructor
      · intro hall i v
        cases i with
        | zero =>
          rw [List.drop_zero]
          exact fun hsm => absurd hm (by rw [matchAt_iff.mpr hsm]; simp)
        | succ i => simpa using hall i v
      · intro hall i v
        simpa using hall (i + 1) v

/-- `re.search` returns the value of the leftmost matching position. -/
theorem reSearch_eq_some_of_min {cs : List Char} {i v : Nat}
    (h : SpecMatchAt (cs.drop i) v)
    (hmin : ∀ j < i, ∀ w, ¬SpecMatchAt (cs.drop j) w) :
    reSearch cs = some v := by
  induction cs generalizing i with
  | nil =>
    rw [List.drop_nil] at h
    exact absurd h (not_specMatchAt_nil v)
  | cons c cs' ih =>
    cases i with
    | zero =>
      rw [List.drop_zero] at h
      rw [reSearch, matchAt_iff.mpr h]
    | succ i =>
      have hm : matchAt (c :: cs') = none := by
        cases hm : matchAt (c :: cs') with
        | none => rfl
        | some w =>
          exact absurd (matchAt_iff.mp hm)
            (by simpa using hmin 0 (Nat.succ_pos i) w)
      rw [show reSearch (c :: cs') = reSearch cs' by rw [reSearch, hm]]
      refine ih (by simpa using h) ?_
      intro j hj w
      simpa using hmin (j + 1) (Nat.succ_lt_succ hj) w

/-! ## Claims -/

/-- C1, counterexample: a proxy error whose textual message contains
"status 502" yields a `ProxyResult` with `status = 502` although the
request obtained no HTTP response at all — refuting "status == 0 iff no
response with a status code >= 200 was obtained". -/
theorem status_zero_iff_counterexample :
    test_proxy [("proxy", "1.2.3.4:8080")] "proxy" none none
        (.proxyError "Tunnel connection failed: proxy returned status 502") =
      .ok { proxy := "1.2.3.4:8080", status := 502, location := "Unknown",
            real_location := "Failed",
            error := "ProxyError: Tunnel connection failed: proxy returned status 502" } ∧
    obtainedStatus (.proxyError "Tunnel connection failed: proxy returned status 502") =
      none := by
  decide

/-- C1 (amended): for every tested record, the resulting `ProxyResult` has
`status == 0` iff every status code that was either obtained from an HTTP
response or recovered from the error text of a proxy/connection error is
below 200 (any status below 200 is normalized to 0). -/
theorem status_zero_iff (row : Row) (pf : String) (lf prf : Option String)
    (oc : ReqOutcome) (res : ProxyResult)
    (h : test_proxy row pf lf prf oc = .ok res) :
    res.status = 0 ↔
      ∀ s, obtainedStatus oc = some s ∨ recoveredStatus oc = some s → s < 200 := by
  obtain ⟨hs, -, -, -⟩ := test_proxy_ok_inv h
  rw [hs]
  cases oc <;>
    simp [normStatus, rawStatus, obtainedStatus, recoveredStatus, norm_eq_zero_iff] <;>
    omega

/-- C1, witness at a timed-out request. -/
theorem status_zero_iff_witness :
    (({ proxy := "1.2.3.4:8080", status := 0, location := "Unknown",
        real_location := "Failed", error := "TimeoutError: t" } : ProxyResult).status = 0 ↔
      ∀ s, obtainedStatus (.timeout "t") = some s ∨ recoveredStatus (.timeout "t") = some s →
        s < 200) :=
  status_zero_iff [("proxy", "1.2.3.4:8080")] "proxy" none none (.timeout "t") _ (by decide)

/-- C2, counterexample: a record lacking the configured proxy column makes
`test_proxy` raise a `KeyError` to its caller (line 35 runs before the
`try` block), refuting "never raises for every record and configuration". -/
theorem never_raises_counterexample :
    test_proxy ([] : Row) "proxy" none none (.timeout "timed out") =
      .error (.keyError "proxy") := by
  decide

/-- C2 (amended): for every record that contains the configured proxy
column (and the protocol column when a truthy one is configured),
`test_proxy` never raises: every error condition is captured and encoded
into the returned result's `error` and `status` fields. -/
theorem never_raises_given_fields (row : Row) (pf : String) (lf prf : Option String)
    (oc : ReqOutcome) (raw : String) (hpf : rowGet? row pf = some raw)
    (hprf : ∀ f, prf = some f → ¬f = "" → ∃ v, rowGet? row f = some v) :
    ∃ res, test_proxy row pf lf prf oc = .ok res ∧
      res.error = errorText oc ∧ res.status = normStatus oc := by
  cases prf with
  | none => exact ⟨_, test_proxy_no_protocol row pf lf oc raw hpf, rfl, rfl⟩
  | some f =>
    by_cases hf : f = ""
    · subst hf
      exact ⟨_, test_proxy_empty_protocol row pf lf oc raw hpf, rfl, rfl⟩
    · obtain ⟨v, hv⟩ := hprf f rfl hf
      exact ⟨_, test_proxy_with_protocol row pf lf f oc raw v hpf hf hv, rfl, rfl⟩

/-- C2, witness at a connection error. -/
theorem never_raises_witness :
    ∃ res, test_proxy [("proxy", "1.2.3.4:8080")] "proxy" none none
        (.connError "refused") = .ok res ∧
      res.error = errorText (.connError "refused") ∧
      res.status = normStatus (.connError "refused") :=
  never_raises_given_fields _ "proxy" none none _ "1.2.3.4:8080" (by decide)
    (by intro f hf; cases hf)

/-- C3: `extract_status_from_error` returns the 3-digit number of the
first (leftmost) token of the form `HTTP <ddd>` / `status <ddd>`
(case-insensitive keyword, whitespace between keyword and digits); a
string with no such token yields 0, and in particular "HTTP 403" yields
403 and "status 502" yields 502. -/
theorem extract_status_correct :
    (∀ msg : String, (∀ i v, ¬SpecMatchAt (msg.data.drop i) v) →
      extract_status_from_error msg = 0) ∧
    (∀ (msg : String) (i v : Nat), SpecMatchAt (msg.data.drop i) v →
      (∀ j < i, ∀ w, ¬SpecMatchAt (msg.data.drop j) w) →
      extract_status_from_error msg = v) ∧
    extract_status_from_error "ProxyError: got HTTP 403 Forbidden" = 403 ∧
    extract_status_from_error "upstream returned status 502 today" = 502 ∧
    extract_status_from_error "connection reset by peer" = 0 := by
  refine ⟨?_, ?_, by decide, by decide, by decide⟩
  · intro msg hall
    unfold extract_status_from_error
    rw [reSearch_eq_none_iff.mpr hall]
    rfl
  · intro msg i v h hmin
    unfold extract_status_from_error
    rw [reSearch_eq_some_of_min h hmin]
    rfl

/-- C3, witness: a match-free message yields 0, and the token "HTTP 403"
at position 0 yields 403. -/
theorem extract_status_correct_witness :
    extract_status_from_error "connection refused by host" = 0 ∧
    extract_status_from_error "HTTP 403" = 403 :=
  ⟨extract_status_correct.1 "connection refused by host"
      (reSearch_eq_none_iff.mp (by decide)),
   extract_status_correct.2.1 "HTTP 403" 0 403
      ⟨"HTTP".data, [' '], '4', '0', '3', [], by decide, Or.inl (by decide),
        by decide, by decide, by decide, by decide, by decide, by decide⟩
      (fun j hj w => absurd hj (Nat.not_lt_zero j))⟩

/-- C4: with a truthy protocol field present in the record, the proxy URL
is `https://` + raw address when the field's value lowercases to "yes" and
`http://` + raw address otherwise; with no protocol field, the proxy URL
is the raw address unmodified. -/
theorem proxy_url_construction (row : Row) (pf : String) (lf : Option String)
    (oc : ReqOutcome) (raw : String) (hpf : rowGet? row pf = some raw) :
    (∀ f v, ¬f = "" → rowGet? row f = some v →
      ∃ res, test_proxy row pf lf (some f) oc = .ok res ∧
        (pyLower v = "yes" → res.proxy = "https://" ++ raw) ∧
        (¬pyLower v = "yes" → res.proxy = "http://" ++ raw)) ∧
    (∃ res, test_proxy row pf lf none oc = .ok res ∧ res.proxy = raw) := by
  constructor
  · intro f v hf hv
    refine ⟨_, test_proxy_with_protocol row pf lf f oc raw v hpf hf hv, ?_, ?_⟩
    · intro hyes
      have h1 : (if (pyLower v == "yes") = true then "https" else "http") = "https" := by
        simp [hyes]
      show (if (pyLower v == "yes") = true then "https" else "http") ++ "://" ++ raw =
        "https://" ++ raw
      rw [h1]
      exact congrArg (fun s => s ++ raw) (by decide)
    · intro hno
      have h1 : (if (pyLower v == "yes") = true then "https" else "http") = "http" := by
        simp [hno]
      show (if (pyLower v == "yes") = true then "https" else "http") ++ "://" ++ raw =
        "http://" ++ raw
      rw [h1]
      exact congrArg (fun s => s ++ raw) (by decide)
  · exact ⟨_, test_proxy_no_protocol row pf lf oc raw hpf, rfl⟩

/-- C4, witness: value "Yes" and raw address "1.2.3.4:8080". -/
theorem proxy_url_construction_witness :
    ∃ res, test_proxy [("proxy", "1.2.3.4:8080"), ("Https", "Yes")] "proxy" none
        (some "Https") (.timeout "t") = .ok res ∧
      (pyLower "Yes" = "yes" → res.proxy = "https://" ++ "1.2.3.4:8080") ∧
      (¬pyLower "Yes" = "yes" → res.proxy = "http://" ++ "1.2.3.4:8080") :=
  (proxy_url_construction _ "proxy" none (.timeout "t") "1.2.3.4:8080"
    (by decide)).1 "Https" "Yes" (by decide) (by decide)

/-- C5, counterexample: with `limit = 0` the code submits the whole file
(`if limit:` is false), not the first `min(0, count) = 0` records. -/
theorem limit_truncation_counterexample :
    submitted_rows [[("proxy", "1.2.3.4:8080")]] (some 0) =
      [[("proxy", "1.2.3.4:8080")]] ∧
    ¬submitted_rows [[("proxy", "1.2.3.4:8080")]] (some 0) = [] := by
  decide

/-- C5 (amended): for every input file and every provided limit N ≥ 1, the
batch runner submits exactly the first min(N, number of records) records,
preserving file order. -/
theorem limit_truncation (rows : List Row) (n : Int) (hn : 1 ≤ n) :
    submitted_rows rows (some n) = rows.take n.toNat ∧
    (submitted_rows rows (some n)).length = min n.toNat rows.length := by
  have h0 : ¬n = 0 := by omega
  have h1 : 0 ≤ n := by omega
  refine ⟨by simp [submitted_rows, h0, h1], ?_⟩
  simp [submitted_rows, h0, h1]

/-- C5, witness: limit 20 over a 50-record file takes the first 20. -/
theorem limit_truncation_witness :
    submitted_rows (List.replicate 50 [("proxy", "1.2.3.4:8080")]) (some 20) =
      (List.replicate 50 [("proxy", "1.2.3.4:8080")]).take (Int.toNat 20) ∧
    (submitted_rows (List.replicate 50 [("proxy", "1.2.3.4:8080")]) (some 20)).length =
      min (Int.toNat 20) (List.replicate 50 [("proxy", "1.2.3.4:8080")]).length :=
  limit_truncation _ 20 (by decide)

/-- C6: over any completion order of the submitted tasks, each submitted
record produces exactly one output row when no task's collection raises;
a task whose collection raises is skipped and the remaining tasks still
contribute their rows. -/
theorem one_row_per_record (rows : List Row) (limit : Option Int) (pf : String)
    (lf prf : Option String) (ocOf : Row → ReqOutcome)
    (completed : List (Except TestError ProxyResult))
    (hperm : completed.Perm ((submitted_rows rows limit).map
      (fun r => test_proxy r pf lf prf (ocOf r)))) :
    ((∀ r ∈ submitted_rows rows limit, (test_proxy r pf lf prf (ocOf r)).isOk = true) →
      (collect_rows completed).length = (submitted_rows rows limit).length) ∧
    (∀ pre post e, completed = pre ++ .error e :: post →
      collect_rows completed = collect_rows pre ++ collect_rows post) := by
  constructor
  · intro hok
    have hall : ∀ t ∈ completed, t.isOk = true := by
      intro t ht
      obtain ⟨r, hr, rfl⟩ := List.mem_map.mp (hperm.mem_iff.mp ht)
      exact hok r hr
    rw [collect_rows_length_of_ok completed hall, hperm.length_eq, List.length_map]
  · intro pre post e hdec
    subst hdec
    rw [collect_rows_append]
    rfl

/-- C6, witness: a one-record batch in submission order. -/
theorem one_row_per_record_witness :
    (collect_rows ((submitted_rows [[("proxy", "1.2.3.4:8080")]] none).map
      (fun r => test_proxy r "proxy" none none
        ((fun _ => ReqOutcome.timeout "t") r)))).length =
    (submitted_rows [[("proxy", "1.2.3.4:8080")]] none).length :=
  (one_row_per_record _ none "proxy" none none _ _ (List.Perm.refl _)).1 (by decide)

/-- C7, counterexample: a successful response with code 150 and a present
but empty `timezone` field yields `status = 0` (not 150, by the `finally`
normalisation) and `real_location = "Failed"` (not the field's value "",
by `real_location or "Failed"`). -/
theorem success_fields_counterexample :
    test_proxy [("proxy", "1.2.3.4:8080")] "proxy" none none
        (.success 150 [("timezone", "")]) =
      .ok { proxy := "1.2.3.4:8080", status := 0, location := "Unknown",
            real_location := "Failed", error := "" } ∧
    rowGet? [("timezone", "")] "timezone" = some "" := by
  decide

/-- C7 (amended): on success, `status` is the response's code when that
code is ≥ 200 (codes below 200 are normalized to 0) and `real_location` is
the response JSON's `timezone` field when present and nonempty, "Unknown"
when absent, and "Failed" when present but empty; on failure,
`real_location` is "Failed". -/
theorem success_fields (row : Row) (pf : String) (lf prf : Option String)
    (oc : ReqOutcome) (res : ProxyResult)
    (h : test_proxy row pf lf prf oc = .ok res) :
    (∀ code json, oc = .success code json →
      res.status = (if code < 200 then 0 else code) ∧
      res.real_location =
        (if rowGetD json "timezone" "Unknown" = "" then "Failed"
         else rowGetD json "timezone" "Unknown")) ∧
    (isSuccess oc = false → res.real_location = "Failed") := by
  obtain ⟨hs, -, hrl, -⟩ := test_proxy_ok_inv h
  constructor
  · rintro code json rfl
    refine ⟨hs, ?_⟩
    rw [hrl]
    simp [realLocationOf]
  · intro hns
    rw [hrl]
    cases oc <;> simp_all [realLocationOf, isSuccess]

/-- C7, witness at a successful 200 response carrying a timezone. -/
theorem success_fields_witness :
    (∀ code json,
      ReqOutcome.success 200 [("timezone", "America/Chicago")] =
        ReqOutcome.success code json →
      ProxyResult.status
          { proxy := "1.2.3.4:8080", status := 200, location := "Unknown",
            real_location := "America/Chicago", error := "" } =
        (if code < 200 then 0 else code) ∧
      ProxyResult.real_location
          { proxy := "1.2.3.4:8080", status := 200, location := "Unknown",
            real_location := "America/Chicago", error := "" } =
        (if rowGetD json "timezone" "Unknown" = "" then "Failed"
         else rowGetD json "timezone" "Unknown")) ∧
    (isSuccess (ReqOutcome.success 200 [("timezone", "America/Chicago")]) = false →
      ProxyResult.real_location
          { proxy := "1.2.3.4:8080", status := 200, location := "Unknown",
            real_location := "America/Chicago", error := "" } =
        "Failed") :=
  success_fields [("proxy", "1.2.3.4:8080")] "proxy" none none _ _ (by decide)

/-- C8: a limit of 0 is falsy, so the truncation is skipped and every
record of the file is submitted — exactly as with no limit at all. -/
theorem limit_zero_submits_all (rows : List Row) :
    submitted_rows rows (some 0) = rows ∧
    submitted_rows rows (some 0) = submitted_rows rows none := by
  simp [submitted_rows]

/-- C9: when the request succeeds but the JSON `timezone` field is present
with the empty string as its value, `real_location` is "Failed" even
though the test succeeded and `error` is empty. -/
theorem empty_timezone_failed (row : Row) (pf : String) (lf prf : Option String)
    (code : Nat) (json : List (String × String)) (res : ProxyResult)
    (htz : rowGet? json "timezone" = some "")
    (h : test_proxy row pf lf prf (.success code json) = .ok res) :
    res.real_location = "Failed" ∧ res.error = "" := by
  obtain ⟨-, herr, hrl, -⟩ := test_proxy_ok_inv h
  refine ⟨?_, herr⟩
  rw [hrl]
  simp [realLocationOf, rowGetD, htz]

/-- C9, witness. -/
theorem empty_timezone_failed_witness :
    ProxyResult.real_location
        { proxy := "1.2.3.4:8080", status := 200, location := "Unknown",
          real_location := "Failed", error := "" } = "Failed" ∧
    ProxyResult.error
        { proxy := "1.2.3.4:8080", status := 200, location := "Unknown",
          real_location := "Failed", error := "" } = "" :=
  empty_timezone_failed [("proxy", "1.2.3.4:8080")] "proxy" none none 200
    [("timezone", "")] _ (by decide) (by decide)

/-- C10: `test_proxy` raises iff the proxy column, or a configured truthy
protocol column, is missing from the record (the lookups before the `try`
block); every exception inside the `try/except` body — `otherExc`
included — is discarded by the `return` in `finally` and a `ProxyResult`
is still returned. -/
theorem only_key_errors_escape (row : Row) (pf : String) (lf prf : Option String)
    (oc : ReqOutcome) (e : TestError) :
    test_proxy row pf lf prf oc = .error e ↔
      (rowGet? row pf = none ∧ e = .keyError pf) ∨
      (∃ f raw, prf = some f ∧ ¬f = "" ∧ rowGet? row pf = some raw ∧
        rowGet? row f = none ∧ e = .keyError f) := by
  constructor
  · intro h
    cases hpf : rowGet? row pf with
    | none =>
      rw [test_proxy_missing_proxy_col row pf lf prf oc hpf] at h
      exact Or.inl ⟨rfl, ((Except.error.injEq _ _).mp h).symm⟩
    | some raw =>
      cases prf with
      | none =>
        rw [test_proxy_no_protocol row pf lf oc raw hpf] at h
        exact absurd h (by simp)
      | some f =>
        by_cases hf : f = ""
        · subst hf
          rw [test_proxy_empty_protocol row pf lf oc raw hpf] at h
          exact absurd h (by simp)
        · cases hv : rowGet? row f with
          | none =>
            rw [test_proxy_missing_protocol_col row pf lf f oc raw hpf hf hv] at h
            exact Or.inr ⟨f, raw, rfl, hf, rfl, hv, ((Except.error.injEq _ _).mp h).symm⟩
          | some v =>
            rw [test_proxy_with_protocol row pf lf f oc raw v hpf hf hv] at h
            exact absurd h (by simp)
  · rintro (⟨hpf, rfl⟩ | ⟨f, raw, rfl, hf, hpf, hv, rfl⟩)
    · exact test_proxy_missing_proxy_col row pf lf prf oc hpf
    · exact test_proxy_missing_protocol_col row pf lf f oc raw hpf hf hv

/-- C10, witness: an uncaught in-body exception still does not escape; only
the missing proxy column does. -/
theorem only_key_errors_escape_witness :
    test_proxy ([] : Row) "proxy" none none .otherExc = .error (.keyError "proxy") :=
  (only_key_errors_escape [] "proxy" none none .otherExc (.keyError "proxy")).mpr
    (Or.inl (by decide))

end ProxyTester
